import Mathlib

/-!
Verification of the beta-interval engine in `opda/utils.py`.

The repository's own logic (argument validation, interval construction,
the binary searches for highest-density intervals and coverages, and the
Clopper-Pearson confidence bounds) is embedded as executable Lean
definitions over an arbitrary linear ordered field `K`.

The external math/stat library (scipy's beta-distribution evaluator and
numpy's elementwise power, log2, and ceil) is an external collaborator of
the core, so it is modelled as explicit function parameters (`BetaLib`,
`NumpyMath`).  Theorems assume only properties of these parameters that
hold for the mathematical beta distribution (monotonicity, range, the
quantile function being a right inverse of the CDF, the mirror symmetry
of the beta family, and so on); concrete rational instances are provided
to witness the theorems.

Array-valued (`nd`) variants model numpy's elementwise semantics on
already-broadcast one-dimensional arrays, represented as lists; numpy's
truth-value test on arrays (which raises unless the array has exactly
one element) is modelled faithfully in `dkw_epsilon`.
-/

namespace Opda

variable {K : Type} [LinearOrderedField K]

/-- The external beta-distribution evaluator (scipy.stats.beta): a CDF and
a quantile function (ppf), each taking the two shape parameters and a point. -/
structure BetaLib (K : Type) where
  cdf : K → K → K → K
  ppf : K → K → K → K

/-- The external numpy elementwise math used by the binary searches:
`rpow x e` models `x ** e`, `log2` models `np.log2`, and `ceilInt v`
models `int(np.ceil(v))`. -/
structure NumpyMath (K : Type) where
  rpow : K → K → K
  log2 : K → K
  ceilInt : K → ℤ

/-- Properties of the external `log2`/`ceil` that hold for the real
functions: `log2` is at least one from two onward, and `int(np.ceil v)`
is at least `v` (true since `np.ceil` rounds up and `int` of an
integer-valued float is exact). -/
structure NpMathOK [LinearOrderedField K] (m : NumpyMath K) : Prop where
  one_le_log2 : ∀ v : K, 2 ≤ v → 1 ≤ m.log2 v
  le_ceilInt : ∀ v : K, v ≤ (m.ceilInt v : K)

/-- `np.clip(v, lo, hi)`: numpy applies the lower bound first, then the
upper bound. -/
def clip (v lo hi : K) : K := min (max v lo) hi

/-- Permute a list by a list of indices, modelling numpy fancy indexing
`arg[sorting]`. -/
def applyPerm (p : List ℕ) (xs : List K) : List K :=
  p.map (fun i => xs.getD i 0)

/-- The contract numpy documents for `np.argsort(xs)` with the default
`quicksort` kind: the result is a permutation of the index range that
puts `xs` in ascending order.  Stability on ties is NOT part of this
contract. -/
def IsSortingPerm (xs : List K) (p : List ℕ) : Prop :=
  p.Perm (List.range xs.length) ∧ (applyPerm p xs).Sorted (· ≤ ·)

/-- `sort_by_first(*args)` from `opda/utils.py`, parameterized by the
external `argsort`.  With zero arguments the validation generator is
empty (so `args[0]` is never evaluated) and the empty tuple is returned. -/
def sort_by_first (argsort : List K → List ℕ) (args : List (List K)) :
    Except String (List (List K)) :=
  match args with
  | [] => .ok []
  | a0 :: rest =>
    if (a0 :: rest).any (fun a => decide (a.length ≠ a0.length)) then
      .error "All argument arrays must have the same shape."
    else
      .ok ((a0 :: rest).map (applyPerm (argsort a0)))

/-- `dkw_epsilon(n, confidence)` from `opda/utils.py`, on already-built
arrays, parameterized by the external elementwise kernel
`eps n c = sqrt(log(2/(1-c)) / (2n))`.

The source runs `if n <= 0:` on the whole array `n`; numpy's truth-value
test raises `ValueError` unless the array has exactly one element, which
the outer match models.  The `confidence` test uses `np.any`, which
works elementwise on any size, and the result broadcasts the single
element of `n` against `confidence`. -/
def dkw_epsilon (eps : K → K → K) (n confidence : List K) :
    Except String (List K) :=
  match n with
  | [n0] =>
    if n0 ≤ 0 then .error "n must be positive."
    else if confidence.any (fun c => decide (c < 0) || decide (1 < c)) then
      .error "confidence must be between 0 and 1."
    else .ok (confidence.map (eps n0))
  | _ =>
    .error "The truth value of an array with more than one element is ambiguous."

/-- The real elementwise kernel of `dkw_epsilon`:
`np.sqrt(np.log(2/(1 - confidence)) / (2 * n))`. -/
noncomputable def realEps : ℝ → ℝ → ℝ :=
  fun n c => Real.sqrt (Real.log (2 / (1 - c)) / (2 * n))

/-- `beta_equal_tailed_interval(a, b, coverage)` from `opda/utils.py`
(scalar / per-element form). -/
def beta_equal_tailed_interval (lib : BetaLib K) (a b coverage : K) :
    Except String (K × K) :=
  if a ≤ 0 then .error "a must be positive."
  else if b ≤ 0 then .error "b must be positive."
  else if coverage < 0 ∨ 1 < coverage then
    .error "coverage must be between 0 and 1."
  else
    .ok (lib.ppf a b ((1 - coverage) / 2), lib.ppf a b ((1 + coverage) / 2))

/-- The mode expression `np.clip((a - 1) / (a + b - 2), 0., 1.)` shared by
the highest-density routines. -/
def betaMode (a b : K) : K := clip ((a - 1) / (a + b - 2)) 0 1

/-- The unnormalized density surrogate inlined in the source:
`x ** ((a-1)/(b-1)) * (1-x)`. -/
def updf (rpow : K → K → K) (a b x : K) : K :=
  rpow x ((a - 1) / (b - 1)) * (1 - x)

/-- The initial bracket `(x_lo, x_hi)` of the highest-density-interval
binary search:
`x_lo = beta.ppf(np.maximum(beta.cdf(mode) - coverage, 0.))`,
`x_hi = np.minimum(mode, beta.ppf(1. - coverage))`. -/
def hdiInit (lib : BetaLib K) (a b coverage : K) : K × K :=
  let mode := betaMode a b
  (lib.ppf a b (max (lib.cdf a b mode - coverage) 0),
   min mode (lib.ppf a b (1 - coverage)))

/-- State of the highest-density-interval search: the bracket
`(lo, hi)` for the lower endpoint, plus the midpoint `x` and upper
endpoint `y` computed by the most recent iteration. -/
structure HdiState (K : Type) where
  lo : K
  hi : K
  x : K
  y : K

/-- One iteration of the `beta_highest_density_interval` loop.  The
upper endpoint is clamped into `[x, 1]` (`y = np.clip(y, x, 1.)`), and
the bracket is updated by comparing the unnormalized densities:
`x_lo = np.where(x_pdf <= y_pdf, x, x_lo)`,
`x_hi = np.where(x_pdf >= y_pdf, x, x_hi)`. -/
def hdiStep (rpow : K → K → K) (lib : BetaLib K) (a b coverage : K)
    (s : HdiState K) : HdiState K :=
  let x := (s.lo + s.hi) / 2
  let y := lib.ppf a b (clip (lib.cdf a b x + coverage) 0 1)
  let y := clip y x 1
  let xpdf := updf rpow a b x
  let ypdf := updf rpow a b y
  { lo := if xpdf ≤ ypdf then x else s.lo
    hi := if ypdf ≤ xpdf then x else s.hi
    x := x
    y := y }

/-- Run `n` iterations of the highest-density-interval loop. -/
def hdiRun (rpow : K → K → K) (lib : BetaLib K) (a b coverage : K) :
    ℕ → HdiState K → HdiState K
  | 0, s => s
  | n + 1, s => hdiRun rpow lib a b coverage n (hdiStep rpow lib a b coverage s)

/-- The iteration count both binary searches precompute:
`int(np.ceil(np.log2(max(2, w / atol))))` where `w` is the (maximum)
initial bracket width. -/
def nIterFormula (m : NumpyMath K) (w atol : K) : ℤ :=
  m.ceilInt (m.log2 (max 2 (w / atol)))

/-- The iteration count of `beta_highest_density_interval` on a scalar
input: the bracket width is `x_hi - x_lo` from the initial bracket. -/
def hdiNIterOf (m : NumpyMath K) (lib : BetaLib K) (a b coverage atol : K) : ℤ :=
  nIterFormula m ((hdiInit lib a b coverage).2 - (hdiInit lib a b coverage).1) atol

/-- The computation phase of `beta_highest_density_interval` for a given
iteration count: run the loop from the initial bracket and return the
`(x, y)` computed by the last iteration.  (The source's loop body always
runs at least once, since the iteration count is at least one, so the
dummy initial `(x, y)` is never returned in any theorem below.) -/
def hdiCompute (rpow : K → K → K) (lib : BetaLib K) (a b coverage : K)
    (n : ℕ) : K × K :=
  let i := hdiInit lib a b coverage
  let s := hdiRun rpow lib a b coverage n ⟨i.1, i.2, i.1, i.1⟩
  (s.x, s.y)

/-- `beta_highest_density_interval(a, b, coverage, atol)` from
`opda/utils.py` (scalar form): validation in source order, then the
binary search for the lower endpoint. -/
def beta_highest_density_interval (m : NumpyMath K) (lib : BetaLib K)
    (a b coverage atol : K) : Except String (K × K) :=
  if a ≤ 0 then .error "a must be positive."
  else if b ≤ 0 then .error "b must be positive."
  else if coverage < 0 ∨ 1 < coverage then
    .error "coverage must be between 0 and 1."
  else if a ≤ 1 ∧ b ≤ 1 then
    .error "Either a or b must be greater than one to have a highest density interval."
  else
    .ok (hdiCompute m.rpow lib a b coverage (hdiNIterOf m lib a b coverage atol).toNat)

/-- `np.max` over a nonempty list (the source calls it only on nonempty
arrays; the value on `[]` is irrelevant to the theorems below). -/
def npMax : List K → K
  | [] => 0
  | x :: xs => xs.foldr max x

/-- `beta_highest_density_interval` on already-broadcast arrays of a
common length: the validation tests are `np.any` over the elements (with
`(a <= 1.) & (b <= 1.)` tested pairwise), and the binary search runs a
single iteration count derived from the maximum initial bracket width
across all elements. -/
def beta_highest_density_interval_nd (m : NumpyMath K) (lib : BetaLib K)
    (a b coverage : List K) (atol : K) : Except String (List (K × K)) :=
  if a.any (fun v => decide (v ≤ 0)) then .error "a must be positive."
  else if b.any (fun v => decide (v ≤ 0)) then .error "b must be positive."
  else if coverage.any (fun v => decide (v < 0) || decide (1 < v)) then
    .error "coverage must be between 0 and 1."
  else if (a.zip b).any (fun p => decide (p.1 ≤ 1) && decide (p.2 ≤ 1)) then
    .error "Either a or b must be greater than one to have a highest density interval."
  else
    let triples := (a.zip b).zip coverage
    let inits := triples.map (fun t => hdiInit lib t.1.1 t.1.2 t.2)
    let n := (nIterFormula m (npMax (inits.map (fun p => p.2 - p.1))) atol).toNat
    .ok (triples.map (fun t => hdiCompute m.rpow lib t.1.1 t.1.2 t.2 n))

/-- `beta_equal_tailed_coverage(a, b, x)` from `opda/utils.py`.  The
source performs NO argument validation: it directly returns
`2 * np.abs(0.5 - beta.cdf(x))`, so the result type has no error case
that is ever produced. -/
def beta_equal_tailed_coverage (lib : BetaLib K) (a b x : K) :
    Except String K :=
  .ok (2 * |1 / 2 - lib.cdf a b x|)

/-- State of the highest-density-coverage search: the bracket
`(lo, hi)` for the endpoint opposite `x`, plus the midpoint `y` from the
most recent iteration. -/
structure HdcState (K : Type) where
  lo : K
  hi : K
  y : K

/-- One iteration of the `beta_highest_density_coverage` loop:
`y_is_lo = x_is_lower_end == (x_pdf < y ** ((a-1)/(b-1)) * (1-y))`,
`y_lo = np.where(y_is_lo, y, y_lo)`, `y_hi = np.where(~y_is_lo, y, y_hi)`. -/
def hdcStep (rpow : K → K → K) (a b xpdf : K) (xIsLower : Bool)
    (s : HdcState K) : HdcState K :=
  let y := (s.lo + s.hi) / 2
  let yIsLo := xIsLower == decide (xpdf < updf rpow a b y)
  { lo := if yIsLo then y else s.lo
    hi := if yIsLo then s.hi else y
    y := y }

/-- Run `n` iterations of the highest-density-coverage loop. -/
def hdcRun (rpow : K → K → K) (a b xpdf : K) (xIsLower : Bool) :
    ℕ → HdcState K → HdcState K
  | 0, s => s
  | n + 1, s => hdcRun rpow a b xpdf xIsLower n (hdcStep rpow a b xpdf xIsLower s)

/-- The initial bracket of the highest-density-coverage search:
`y_lo = np.where(x_is_lower_end, mode, 0.)`,
`y_hi = np.where(x_is_lower_end, 1., mode)`. -/
def hdcInit (a b x : K) : K × K :=
  let mode := betaMode a b
  (if x < mode then mode else 0, if x < mode then 1 else mode)

/-- The iteration count of `beta_highest_density_coverage` on a scalar
input: the bracket width is `y_hi - y_lo` from the initial bracket. -/
def hdcNIterOf (m : NumpyMath K) (a b x atol : K) : ℤ :=
  nIterFormula m ((hdcInit a b x).2 - (hdcInit a b x).1) atol

/-- The computation phase of `beta_highest_density_coverage` for a given
iteration count: run the loop, swap `x` and the found endpoint `y`
according to which side of the mode `x` lies on, and return
`beta.cdf(y) - beta.cdf(x)`. -/
def hdcCompute (m : NumpyMath K) (lib : BetaLib K) (a b x : K) (n : ℕ) : K :=
  let mode := betaMode a b
  let xIsLower : Bool := decide (x < mode)
  let xpdf := updf m.rpow a b x
  let i := hdcInit a b x
  let s := hdcRun m.rpow a b xpdf xIsLower n ⟨i.1, i.2, i.1⟩
  let xx := if xIsLower then x else s.y
  let yy := if xIsLower then s.y else x
  lib.cdf a b yy - lib.cdf a b xx

/-- `beta_highest_density_coverage(a, b, x, atol)` from `opda/utils.py`
(scalar form).  The ONLY validation the source performs is the
no-unique-mode test `np.any((a <= 1.) & (b <= 1.))`; in particular the
shape parameters are never checked for positivity. -/
def beta_highest_density_coverage (m : NumpyMath K) (lib : BetaLib K)
    (a b x atol : K) : Except String K :=
  if a ≤ 1 ∧ b ≤ 1 then
    .error "Either a or b must be greater than one to have a highest density interval."
  else
    .ok (hdcCompute m lib a b x (hdcNIterOf m a b x atol).toNat)

/-- `beta_highest_density_coverage` on already-broadcast arrays of a
common length, with the shared iteration count taken from the maximum
initial bracket width. -/
def beta_highest_density_coverage_nd (m : NumpyMath K) (lib : BetaLib K)
    (a b x : List K) (atol : K) : Except String (List K) :=
  if (a.zip b).any (fun p => decide (p.1 ≤ 1) && decide (p.2 ≤ 1)) then
    .error "Either a or b must be greater than one to have a highest density interval."
  else
    let triples := (a.zip b).zip x
    let inits := triples.map (fun t => hdcInit t.1.1 t.1.2 t.2)
    let n := (nIterFormula m (npMax (inits.map (fun p => p.2 - p.1))) atol).toNat
    .ok (triples.map (fun t => hdcCompute m lib t.1.1 t.1.2 t.2 n))

/-- `binomial_confidence_interval(n_successes, n_total, confidence)` from
`opda/utils.py`: validation in source order, then the Clopper-Pearson
bounds
`lo = np.where(n_successes == 0, 0., Beta(k, n-k+1).ppf((1-confidence)/2))`,
`hi = np.where(n_successes == n_total, 1., Beta(k+1, n-k).ppf(1-(1-confidence)/2))`. -/
def binomial_confidence_interval (lib : BetaLib K)
    (n_successes n_total : ℤ) (confidence : K) : Except String (K × K) :=
  if n_successes < 0 then
    .error "n_successes must be greater than or equal to 0."
  else if n_total < 1 then
    .error "n_total must be greater than or equal to 1."
  else if confidence < 0 ∨ 1 < confidence then
    .error "confidence must be between 0 and 1."
  else if n_total < n_successes then
    .error "n_successes must be less than or equal to n_total."
  else
    .ok
      (if n_successes = 0 then 0
       else lib.ppf (n_successes : K) ((n_total - n_successes + 1 : ℤ) : K)
              ((1 - confidence) / 2),
       if n_successes = n_total then 1
       else lib.ppf ((n_successes + 1 : ℤ) : K) ((n_total - n_successes : ℤ) : K)
              (1 - (1 - confidence) / 2))

/-- A concrete rational beta evaluator used to witness theorems: the
`Beta(1, 1)` (uniform) distribution for every shape pair, whose CDF and
quantile function are both the identity clipped into the unit interval. -/
def uniLib : BetaLib ℚ :=
  { cdf := fun _ _ x => clip x 0 1
    ppf := fun _ _ p => clip p 0 1 }

/-- A concrete rational beta evaluator for the Clopper-Pearson example:
like `uniLib`, except that the shape pairs `(5, 6)` and `(6, 5)` use a
shifted clipped identity placing the quantile `Beta(5,6).ppf(1/4)` at
`0.3507` and `Beta(6,5).ppf(3/4)` at `0.6493`. -/
def cpLib : BetaLib ℚ :=
  { cdf := fun a b x =>
      if a = 5 ∧ b = 6 then clip (x - 1007 / 10000) 0 1
      else if a = 6 ∧ b = 5 then clip (x + 1007 / 10000) 0 1
      else clip x 0 1
    ppf := fun a b p =>
      if a = 5 ∧ b = 6 then clip (p + 1007 / 10000) 0 1
      else if a = 6 ∧ b = 5 then clip (p - 1007 / 10000) 0 1
      else clip p 0 1 }

/-- A concrete rational stand-in for the external numpy math used to
witness theorems. -/
def toyMath : NumpyMath ℚ :=
  { rpow := fun _ _ => 1
    log2 := fun v => v - 1
    ceilInt := fun v => ⌈v⌉ }

/-! ### Helper lemmas about `clip` -/

theorem clip_le_hi (v lo hi : K) : clip v lo hi ≤ hi := min_le_right _ _

theorem lo_le_clip (v : K) {lo hi : K} (h : lo ≤ hi) : lo ≤ clip v lo hi :=
  le_min (le_max_right v lo) h

theorem clip_mem01 (v : K) : 0 ≤ clip v 0 1 ∧ clip v 0 1 ≤ 1 :=
  ⟨lo_le_clip v zero_le_one, clip_le_hi v 0 1⟩

theorem clip_of_mem {v lo hi : K} (h0 : lo ≤ v) (h1 : v ≤ hi) :
    clip v lo hi = v := by
  unfold clip
  rw [max_eq_left h0, min_eq_left h1]

theorem clip_mono {v w : K} (lo hi : K) (h : v ≤ w) :
    clip v lo hi ≤ clip w lo hi :=
  min_le_min (max_le_max h (le_refl lo)) (le_refl hi)

/-! ### Properties of the concrete rational evaluators -/

theorem uniLib_cdf_ppf (a b p : ℚ) (h0 : 0 ≤ p) (h1 : p ≤ 1) :
    uniLib.cdf a b (uniLib.ppf a b p) = p := by
  show clip (clip p 0 1) 0 1 = p
  rw [clip_of_mem h0 h1, clip_of_mem h0 h1]

theorem uniLib_ppf_mem (a b p : ℚ) :
    0 ≤ uniLib.ppf a b p ∧ uniLib.ppf a b p ≤ 1 := clip_mem01 p

theorem uniLib_ppf_mono (a b : ℚ) {p q : ℚ} (h : p ≤ q) :
    uniLib.ppf a b p ≤ uniLib.ppf a b q := clip_mono 0 1 h

theorem uniLib_cdf_le_one (a b x : ℚ) : uniLib.cdf a b x ≤ 1 :=
  clip_le_hi x 0 1

theorem uniLib_mirror (a b p : ℚ) :
    uniLib.ppf a b p = 1 - uniLib.ppf b a (1 - p) := by
  show clip p 0 1 = 1 - clip (1 - p) 0 1
  unfold clip
  rcases le_total p 0 with h | h
  · rw [max_eq_right h, min_eq_left zero_le_one,
      max_eq_left (by linarith : (0 : ℚ) ≤ 1 - p),
      min_eq_right (by linarith : (1 : ℚ) ≤ 1 - p)]
    norm_num
  · rcases le_total p 1 with h1 | h1
    · rw [max_eq_left h, min_eq_left h1,
        max_eq_left (by linarith : (0 : ℚ) ≤ 1 - p),
        min_eq_left (by linarith : 1 - p ≤ (1 : ℚ))]
      ring
    · rw [max_eq_left (by linarith : (0 : ℚ) ≤ p), min_eq_right h1,
        max_eq_right (by linarith : 1 - p ≤ (0 : ℚ)),
        min_eq_left zero_le_one]
      norm_num

theorem toyMathOK : NpMathOK toyMath := by
  constructor
  · intro v h
    show (1 : ℚ) ≤ v - 1
    linarith
  · intro v
    exact Int.le_ceil v

/-! ### The iteration count is always at least one -/

theorem one_le_nIterFormula {m : NumpyMath K} (hm : NpMathOK m) (w atol : K) :
    1 ≤ nIterFormula m w atol := by
  have h1 : (1 : K) ≤ m.log2 (max 2 (w / atol)) :=
    hm.one_le_log2 _ (le_max_left 2 (w / atol))
  have h2 := hm.le_ceilInt (m.log2 (max 2 (w / atol)))
  have h3 : (1 : K) ≤ (m.ceilInt (m.log2 (max 2 (w / atol))) : K) :=
    le_trans h1 h2
  exact_mod_cast h3

/-! ### Invariants of the highest-density-interval binary search -/

theorem hdiStep_bracket (rpow : K → K → K) (lib : BetaLib K) (a b c : K)
    {s : HdiState K} (h1 : 0 ≤ s.lo) (h2 : s.lo ≤ 1) (h3 : 0 ≤ s.hi)
    (h4 : s.hi ≤ 1) :
    0 ≤ (hdiStep rpow lib a b c s).lo ∧ (hdiStep rpow lib a b c s).lo ≤ 1 ∧
    0 ≤ (hdiStep rpow lib a b c s).hi ∧ (hdiStep rpow lib a b c s).hi ≤ 1 := by
  have hx0 : 0 ≤ (s.lo + s.hi) / 2 := by linarith
  have hx1 : (s.lo + s.hi) / 2 ≤ 1 := by linarith
  unfold hdiStep
  dsimp only
  refine ⟨?_, ?_, ?_, ?_⟩ <;> split_ifs <;> assumption

theorem hdiStep_good (rpow : K → K → K) (lib : BetaLib K) (a b c : K)
    {s : HdiState K} (h1 : 0 ≤ s.lo) (h2 : s.lo ≤ 1) (h3 : 0 ≤ s.hi)
    (h4 : s.hi ≤ 1) :
    0 ≤ (hdiStep rpow lib a b c s).x ∧
    (hdiStep rpow lib a b c s).x ≤ (hdiStep rpow lib a b c s).y ∧
    (hdiStep rpow lib a b c s).y ≤ 1 := by
  have hx0 : 0 ≤ (s.lo + s.hi) / 2 := by linarith
  have hx1 : (s.lo + s.hi) / 2 ≤ 1 := by linarith
  unfold hdiStep
  dsimp only
  exact ⟨hx0, lo_le_clip _ hx1, clip_le_hi _ _ _⟩

theorem hdiRun_bracket (rpow : K → K → K) (lib : BetaLib K) (a b c : K) :
    ∀ (n : ℕ) (s : HdiState K), 0 ≤ s.lo → s.lo ≤ 1 → 0 ≤ s.hi → s.hi ≤ 1 →
    0 ≤ (hdiRun rpow lib a b c n s).lo ∧ (hdiRun rpow lib a b c n s).lo ≤ 1 ∧
    0 ≤ (hdiRun rpow lib a b c n s).hi ∧ (hdiRun rpow lib a b c n s).hi ≤ 1 := by
  intro n
  induction n with
  | zero => intro s h1 h2 h3 h4; exact ⟨h1, h2, h3, h4⟩
  | succ k ih =>
    intro s h1 h2 h3 h4
    have hs := hdiStep_bracket rpow lib a b c h1 h2 h3 h4
    exact ih (hdiStep rpow lib a b c s) hs.1 hs.2.1 hs.2.2.1 hs.2.2.2

theorem hdiRun_good (rpow : K → K → K) (lib : BetaLib K) (a b c : K) :
    ∀ (n : ℕ) (s : HdiState K), 0 ≤ s.lo → s.lo ≤ 1 → 0 ≤ s.hi → s.hi ≤ 1 →
    0 ≤ (hdiRun rpow lib a b c (n + 1) s).x ∧
    (hdiRun rpow lib a b c (n + 1) s).x ≤ (hdiRun rpow lib a b c (n + 1) s).y ∧
    (hdiRun rpow lib a b c (n + 1) s).y ≤ 1 := by
  intro n
  induction n with
  | zero =>
    intro s h1 h2 h3 h4
    show 0 ≤ (hdiStep rpow lib a b c s).x ∧ _ ∧ _
    exact hdiStep_good rpow lib a b c h1 h2 h3 h4
  | succ k ih =>
    intro s h1 h2 h3 h4
    have hs := hdiStep_bracket rpow lib a b c h1 h2 h3 h4
    exact ih (hdiStep rpow lib a b c s) hs.1 hs.2.1 hs.2.2.1 hs.2.2.2

/-! ### List helper lemmas -/

theorem range_map_getD (xs : List K) :
    (List.range xs.length).map (fun i => xs.getD i 0) = xs := by
  induction xs with
  | nil => simp
  | cons x xs ih =>
    rw [List.length_cons, List.range_succ_eq_map, List.map_cons,
      List.map_map]
    have hcomp :
        ((fun i => (x :: xs).getD i 0) ∘ Nat.succ) = (fun i => xs.getD i 0) := by
      funext i
      simp
    rw [hcomp, ih]
    simp

theorem applyPerm_perm {p : List ℕ} {xs : List K}
    (hp : p.Perm (List.range xs.length)) : (applyPerm p xs).Perm xs := by
  have h := hp.map (fun i => xs.getD i 0)
  rw [range_map_getD] at h
  exact h

/-! ### Claim theorems -/

/-- C1: for positive shapes and coverage in the unit interval,
`beta_equal_tailed_interval(a, b, coverage)` returns the pair of beta
quantiles at `(1-coverage)/2` and `(1+coverage)/2`; consequently the CDF
of the lower endpoint is `(1-coverage)/2` and of the upper endpoint
`(1+coverage)/2`, coverage `0` collapses both endpoints to the median
(the quantile at `1/2`), and coverage `1` yields `(0, 1)`.  The
hypotheses are facts of the mathematical beta evaluator: its quantile
function is a right inverse of its CDF on the unit interval and maps `0`
to `0` and `1` to `1`. -/
theorem claim_C1 (lib : BetaLib K) (a b coverage : K)
    (ha : 0 < a) (hb : 0 < b) (hc0 : 0 ≤ coverage) (hc1 : coverage ≤ 1)
    (hinv : ∀ p, 0 ≤ p → p ≤ 1 → lib.cdf a b (lib.ppf a b p) = p)
    (hppf0 : lib.ppf a b 0 = 0) (hppf1 : lib.ppf a b 1 = 1) :
    beta_equal_tailed_interval lib a b coverage =
      .ok (lib.ppf a b ((1 - coverage) / 2), lib.ppf a b ((1 + coverage) / 2)) ∧
    lib.cdf a b (lib.ppf a b ((1 - coverage) / 2)) = (1 - coverage) / 2 ∧
    lib.cdf a b (lib.ppf a b ((1 + coverage) / 2)) = (1 + coverage) / 2 ∧
    (coverage = 0 →
      beta_equal_tailed_interval lib a b coverage =
        .ok (lib.ppf a b (1 / 2), lib.ppf a b (1 / 2))) ∧
    (coverage = 1 → beta_equal_tailed_interval lib a b coverage = .ok (0, 1)) := by
  have heq : beta_equal_tailed_interval lib a b coverage =
      .ok (lib.ppf a b ((1 - coverage) / 2), lib.ppf a b ((1 + coverage) / 2)) := by
    unfold beta_equal_tailed_interval
    rw [if_neg (not_le.mpr ha), if_neg (not_le.mpr hb),
      if_neg (by push_neg; exact ⟨hc0, hc1⟩)]
  refine ⟨heq, hinv _ (by linarith) (by linarith),
    hinv _ (by linarith) (by linarith), ?_, ?_⟩
  · intro h
    subst h
    rw [heq]
    norm_num
  · intro h
    subst h
    rw [heq]
    norm_num [hppf0, hppf1]

/-- Witness for C1: the uniform evaluator at `a = b = 1`,
`coverage = 1/2`. -/
theorem claim_C1_witness :
    beta_equal_tailed_interval uniLib 1 1 (1 / 2) =
      .ok (uniLib.ppf 1 1 ((1 - 1 / 2) / 2), uniLib.ppf 1 1 ((1 + 1 / 2) / 2)) :=
  (claim_C1 uniLib 1 1 (1 / 2) one_pos one_pos (by norm_num) (by norm_num)
    (uniLib_cdf_ppf 1 1)
    (show clip (0 : ℚ) 0 1 = 0 from clip_of_mem le_rfl zero_le_one)
    (show clip (1 : ℚ) 0 1 = 1 from clip_of_mem zero_le_one le_rfl)).1

/-- C9: the binary searches in `beta_highest_density_interval` and
`beta_highest_density_coverage` run a number of iterations fixed before
the loop, equal to `int(ceil(log2(max(2, bracket_width / atol))))`, and
this count is always at least one (even when the initial bracket is
already narrower than `atol`, thanks to the inner `max 2 _`); both loops
are structurally bounded by this count.  The hypotheses are the
properties of the external `log2`/`ceil` stated in `NpMathOK`. -/
theorem claim_C9 (m : NumpyMath K) (lib : BetaLib K) (hm : NpMathOK m) :
    (∀ a b coverage atol : K, 1 ≤ hdiNIterOf m lib a b coverage atol) ∧
    (∀ a b x atol : K, 1 ≤ hdcNIterOf m a b x atol) ∧
    (∀ a b coverage atol : K,
      hdiNIterOf m lib a b coverage atol =
        m.ceilInt (m.log2 (max 2
          (((hdiInit lib a b coverage).2 - (hdiInit lib a b coverage).1) / atol)))) ∧
    (∀ a b x atol : K,
      hdcNIterOf m a b x atol =
        m.ceilInt (m.log2 (max 2
          (((hdcInit a b x).2 - (hdcInit a b x).1) / atol)))) := by
  refine ⟨fun a b c atol => one_le_nIterFormula hm _ _,
    fun a b x atol => one_le_nIterFormula hm _ _,
    fun _ _ _ _ => rfl, fun _ _ _ _ => rfl⟩

/-- Witness for C9: with the concrete toy math, at a bracket that is
already narrower than the tolerance, at least one iteration still runs. -/
theorem claim_C9_witness : 1 ≤ hdiNIterOf toyMath uniLib 2 2 1 1 :=
  (claim_C9 toyMath uniLib toyMathOK).1 2 2 1 1

/-- C10: when `n` is an array with more than one element,
`dkw_epsilon(n, confidence)` raises regardless of the element values,
because the source evaluates `if n <= 0:` on the whole array and numpy's
truth-value test on a multi-element array is ambiguous. -/
theorem claim_C10 (eps : K → K → K) (n confidence : List K)
    (h : 1 < n.length) :
    dkw_epsilon eps n confidence =
      .error "The truth value of an array with more than one element is ambiguous." := by
  cases n with
  | nil => simp at h
  | cons x t =>
    cases t with
    | nil => simp at h
    | cons y t2 => rfl

/-- Witness for C10: a two-element positive `n` and valid confidence
still raise. -/
theorem claim_C10_witness :
    dkw_epsilon (fun _ _ : ℚ => 0) [1, 2] [1 / 2] =
      .error "The truth value of an array with more than one element is ambiguous." :=
  claim_C10 (fun _ _ => 0) [1, 2] [1 / 2] (by simp)

/-- Evaluation of `dkw_epsilon` on valid single-element arguments. -/
theorem dkw_single (eps : K → K → K) (n c : K) (hn : ¬ n ≤ 0)
    (hc0 : ¬ c < 0) (hc1 : ¬ 1 < c) :
    dkw_epsilon eps [n] [c] = .ok [eps n c] := by
  have hany : ([c].any (fun v => decide (v < 0) || decide (1 < v))) = false := by
    simp only [List.any_cons, List.any_nil, Bool.or_false]
    rw [decide_eq_false hc0, decide_eq_false hc1]
    rfl
  simp only [dkw_epsilon]
  rw [if_neg hn, hany]
  rfl

/-- C5 (amended): for every positive scalar (single-element) `n` and
confidence in the unit interval, `dkw_epsilon(n, confidence)` returns
`sqrt(log(2/(1-confidence)) / (2n))`; it raises a validation error when
`n ≤ 0` or the confidence lies outside the unit interval; and
`dkw_epsilon(2, 1 - 2/e) = 0.5`, `dkw_epsilon(8, 1 - 2/e) = 0.25`.
(The original claim's multi-element arrays are settled by the
counterexample `claim_C5_cex` and by C10.) -/
theorem claim_C5 :
    (∀ n c : ℝ, 0 < n → 0 ≤ c → c ≤ 1 →
      dkw_epsilon realEps [n] [c] =
        .ok [Real.sqrt (Real.log (2 / (1 - c)) / (2 * n))]) ∧
    (∀ n c : ℝ, n ≤ 0 →
      dkw_epsilon realEps [n] [c] = .error "n must be positive.") ∧
    (∀ n c : ℝ, ¬ n ≤ 0 → c < 0 ∨ 1 < c →
      dkw_epsilon realEps [n] [c] =
        .error "confidence must be between 0 and 1.") ∧
    dkw_epsilon realEps [2] [1 - 2 / Real.exp 1] = .ok [1 / 2] ∧
    dkw_epsilon realEps [8] [1 - 2 / Real.exp 1] = .ok [1 / 4] := by
  have hexp1 : (2 : ℝ) ≤ Real.exp 1 := by
    have := Real.exp_one_gt_d9
    linarith
  have hc0e : (0 : ℝ) ≤ 1 - 2 / Real.exp 1 := by
    have h1 : (2 : ℝ) / Real.exp 1 ≤ 1 := by
      rw [div_le_one (Real.exp_pos 1)]
      exact hexp1
    linarith
  have hc1e : 1 - 2 / Real.exp 1 ≤ (1 : ℝ) := by
    have h2 : (0 : ℝ) < 2 / Real.exp 1 := div_pos two_pos (Real.exp_pos 1)
    linarith
  have harg : ∀ n : ℝ, ¬ n ≤ 0 →
      dkw_epsilon realEps [n] [1 - 2 / Real.exp 1] =
        .ok [Real.sqrt (1 / (2 * n))] := by
    intro n hn
    rw [dkw_single realEps n _ hn (not_lt.mpr hc0e) (not_lt.mpr hc1e)]
    have h0 : (2 : ℝ) / (1 - (1 - 2 / Real.exp 1)) = Real.exp 1 := by
      rw [show (1 : ℝ) - (1 - 2 / Real.exp 1) = 2 / Real.exp 1 by ring]
      field_simp
    show Except.ok [realEps n (1 - 2 / Real.exp 1)] = _
    unfold realEps
    rw [h0, Real.log_exp]
  refine ⟨?_, ?_, ?_, ?_, ?_⟩
  · intro n c hn h0 h1
    exact dkw_single realEps n c (not_le.mpr hn) (not_lt.mpr h0) (not_lt.mpr h1)
  · intro n c hn
    simp only [dkw_epsilon]
    rw [if_pos hn]
  · intro n c hn hc
    have hany : ([c].any (fun v => decide (v < 0) || decide (1 < v))) = true := by
      simp only [List.any_cons, List.any_nil, Bool.or_false, Bool.or_eq_true,
        decide_eq_true_eq]
      exact hc
    simp only [dkw_epsilon]
    rw [if_neg hn, hany]
    rfl
  · rw [harg 2 (by norm_num)]
    rw [show (1 : ℝ) / (2 * 2) = (1 / 2) ^ 2 by norm_num,
      Real.sqrt_sq (by norm_num : (0 : ℝ) ≤ 1 / 2)]
  · rw [harg 8 (by norm_num)]
    rw [show (1 : ℝ) / (2 * 8) = (1 / 4) ^ 2 by norm_num,
      Real.sqrt_sq (by norm_num : (0 : ℝ) ≤ 1 / 4)]

/-- Witness for C5 at `n = 1`, `confidence = 0`. -/
theorem claim_C5_witness :
    dkw_epsilon realEps [1] [0] =
      .ok [Real.sqrt (Real.log (2 / (1 - 0)) / (2 * 1))] :=
  claim_C5.1 1 0 one_pos le_rfl zero_le_one

/-- Counterexample for C5 as stated: `n = [2, 8]` has every element
positive and the confidence `1/2` is valid, yet `dkw_epsilon` raises the
ambiguous-truth-value error instead of returning the epsilon values. -/
theorem claim_C5_cex :
    dkw_epsilon realEps [2, 8] [1 / 2] =
      .error "The truth value of an array with more than one element is ambiguous." ∧
    dkw_epsilon realEps [2, 8] [1 / 2] ≠
      .ok [realEps 2 (1 / 2), realEps 8 (1 / 2)] := by
  constructor
  · rfl
  · intro h
    exact Except.noConfusion
      ((show dkw_epsilon realEps [2, 8] [1 / 2] =
        .error "The truth value of an array with more than one element is ambiguous."
        from rfl).symm.trans h)

/-- Evaluation of `beta_equal_tailed_interval` on valid arguments. -/
theorem eti_eval (lib : BetaLib K) (a b coverage : K) (ha : 0 < a)
    (hb : 0 < b) (hc0 : 0 ≤ coverage) (hc1 : coverage ≤ 1) :
    beta_equal_tailed_interval lib a b coverage =
      .ok (lib.ppf a b ((1 - coverage) / 2), lib.ppf a b ((1 + coverage) / 2)) := by
  unfold beta_equal_tailed_interval
  rw [if_neg (not_le.mpr ha), if_neg (not_le.mpr hb),
    if_neg (by push_neg; exact ⟨hc0, hc1⟩)]

/-- The initial bracket of the highest-density-interval search lies in
the unit interval, given the range facts of the external evaluator. -/
theorem hdiInit_mem (lib : BetaLib K) (a b coverage : K)
    (hc0 : 0 ≤ coverage) (hc1 : coverage ≤ 1)
    (hppf : ∀ p, 0 ≤ p → p ≤ 1 → 0 ≤ lib.ppf a b p ∧ lib.ppf a b p ≤ 1)
    (hcdf : ∀ x, lib.cdf a b x ≤ 1) :
    0 ≤ (hdiInit lib a b coverage).1 ∧ (hdiInit lib a b coverage).1 ≤ 1 ∧
    0 ≤ (hdiInit lib a b coverage).2 ∧ (hdiInit lib a b coverage).2 ≤ 1 := by
  unfold hdiInit
  dsimp only
  have harg1 : (0 : K) ≤ max (lib.cdf a b (betaMode a b) - coverage) 0 :=
    le_max_right _ _
  have harg2 : max (lib.cdf a b (betaMode a b) - coverage) 0 ≤ 1 :=
    max_le (by have := hcdf (betaMode a b); linarith) zero_le_one
  have h1 := hppf _ harg1 harg2
  have hmode := clip_mem01 ((a - 1) / (a + b - 2))
  have h2 := hppf (1 - coverage) (by linarith) (by linarith)
  exact ⟨h1.1, h1.2, le_min hmode.1 h2.1,
    le_trans (min_le_left _ _) hmode.2⟩

/-- C2: each interval-returning operation, on valid input, returns a
pair `(lo, hi)` with `lo ≤ hi` and both endpoints in the unit interval.
For the highest-density interval this holds for the pair computed by the
final binary-search iteration because the upper endpoint is clamped into
`[x, 1]` on every iteration (`hdiStep`), using no accuracy assumptions
on the evaluator beyond the range of `ppf`/`cdf`; for the equal-tailed
interval it uses monotonicity and range of `ppf`; for the
Clopper-Pearson interval it uses monotonicity, range, and the
first-order stochastic dominance of `Beta(a+1, b)` over `Beta(a, b+1)`. -/
theorem claim_C2 (m : NumpyMath K) (lib : BetaLib K) (hm : NpMathOK m) :
    (∀ a b coverage : K, 0 < a → 0 < b → 0 ≤ coverage → coverage ≤ 1 →
      (∀ p q, 0 ≤ p → p ≤ q → q ≤ 1 → lib.ppf a b p ≤ lib.ppf a b q) →
      (∀ p, 0 ≤ p → p ≤ 1 → 0 ≤ lib.ppf a b p ∧ lib.ppf a b p ≤ 1) →
      ∃ lo hi, beta_equal_tailed_interval lib a b coverage = .ok (lo, hi) ∧
        lo ≤ hi ∧ 0 ≤ lo ∧ hi ≤ 1) ∧
    (∀ a b coverage atol : K, 0 < a → 0 < b → 0 ≤ coverage → coverage ≤ 1 →
      ¬(a ≤ 1 ∧ b ≤ 1) →
      (∀ p, 0 ≤ p → p ≤ 1 → 0 ≤ lib.ppf a b p ∧ lib.ppf a b p ≤ 1) →
      (∀ x, lib.cdf a b x ≤ 1) →
      ∃ lo hi, beta_highest_density_interval m lib a b coverage atol = .ok (lo, hi) ∧
        lo ≤ hi ∧ 0 ≤ lo ∧ hi ≤ 1) ∧
    (∀ (k n : ℤ) (γ : K), 0 ≤ k → k ≤ n → 1 ≤ n → 0 ≤ γ → γ ≤ 1 →
      (0 < k → ∀ p, 0 ≤ p → p ≤ 1 →
        0 ≤ lib.ppf (k : K) ((n - k + 1 : ℤ) : K) p ∧
          lib.ppf (k : K) ((n - k + 1 : ℤ) : K) p ≤ 1) →
      (k < n → ∀ p, 0 ≤ p → p ≤ 1 →
        0 ≤ lib.ppf ((k + 1 : ℤ) : K) ((n - k : ℤ) : K) p ∧
          lib.ppf ((k + 1 : ℤ) : K) ((n - k : ℤ) : K) p ≤ 1) →
      (0 < k → k < n → ∀ p q, 0 ≤ p → p ≤ q → q ≤ 1 →
        lib.ppf (k : K) ((n - k + 1 : ℤ) : K) p ≤
          lib.ppf (k : K) ((n - k + 1 : ℤ) : K) q) →
      (0 < k → k < n → ∀ p, 0 ≤ p → p ≤ 1 →
        lib.ppf (k : K) ((n - k + 1 : ℤ) : K) p ≤
          lib.ppf ((k + 1 : ℤ) : K) ((n - k : ℤ) : K) p) →
      ∃ lo hi, binomial_confidence_interval lib k n γ = .ok (lo, hi) ∧
        lo ≤ hi ∧ 0 ≤ lo ∧ hi ≤ 1) := by
  refine ⟨?_, ?_, ?_⟩
  · intro a b coverage ha hb hc0 hc1 hmono hmem
    refine ⟨_, _, eti_eval lib a b coverage ha hb hc0 hc1, ?_, ?_, ?_⟩
    · exact hmono _ _ (by linarith) (by linarith) (by linarith)
    · exact (hmem _ (by linarith) (by linarith)).1
    · exact (hmem _ (by linarith) (by linarith)).2
  · intro a b coverage atol ha hb hc0 hc1 hmode hmem hcdf
    have hpos : 1 ≤ hdiNIterOf m lib a b coverage atol :=
      one_le_nIterFormula hm _ _
    obtain ⟨kk, hkk⟩ : ∃ kk, (hdiNIterOf m lib a b coverage atol).toNat = kk + 1 :=
      ⟨(hdiNIterOf m lib a b coverage atol).toNat - 1, by omega⟩
    have hinit := hdiInit_mem lib a b coverage hc0 hc1 hmem hcdf
    have hgood := hdiRun_good m.rpow lib a b coverage kk
      ⟨(hdiInit lib a b coverage).1, (hdiInit lib a b coverage).2,
        (hdiInit lib a b coverage).1, (hdiInit lib a b coverage).1⟩
      hinit.1 hinit.2.1 hinit.2.2.1 hinit.2.2.2
    refine ⟨_, _, ?_, hgood.2.1, hgood.1, hgood.2.2⟩
    unfold beta_highest_density_interval
    rw [if_neg (not_le.mpr ha), if_neg (not_le.mpr hb),
      if_neg (by push_neg; exact ⟨hc0, hc1⟩), if_neg hmode]
    unfold hdiCompute
    rw [hkk]
  · intro k n γ hk0 hkn hn1 hγ0 hγ1 hr1 hr2 hmono hfosd
    have heval : binomial_confidence_interval lib k n γ =
        .ok
          (if k = 0 then 0
           else lib.ppf (k : K) ((n - k + 1 : ℤ) : K) ((1 - γ) / 2),
           if k = n then 1
           else lib.ppf ((k + 1 : ℤ) : K) ((n - k : ℤ) : K) (1 - (1 - γ) / 2)) := by
      unfold binomial_confidence_interval
      rw [if_neg (not_lt.mpr hk0), if_neg (not_lt.mpr hn1),
        if_neg (by push_neg; exact ⟨hγ0, hγ1⟩), if_neg (not_lt.mpr hkn)]
    refine ⟨_, _, heval, ?_, ?_, ?_⟩
    · by_cases hk : k = 0
      · rw [if_pos hk, if_neg (by omega)]
        exact (hr2 (by omega) _ (by linarith) (by linarith)).1
      · rw [if_neg hk]
        by_cases hkn2 : k = n
        · rw [if_pos hkn2]
          exact (hr1 (by omega) _ (by linarith) (by linarith)).2
        · rw [if_neg hkn2]
          have hklt : k < n := lt_of_le_of_ne hkn hkn2
          have hkpos : 0 < k := by omega
          calc lib.ppf (k : K) ((n - k + 1 : ℤ) : K) ((1 - γ) / 2) ≤
              lib.ppf (k : K) ((n - k + 1 : ℤ) : K) (1 - (1 - γ) / 2) :=
                hmono hkpos hklt _ _ (by linarith) (by linarith) (by linarith)
            _ ≤ lib.ppf ((k + 1 : ℤ) : K) ((n - k : ℤ) : K) (1 - (1 - γ) / 2) :=
                hfosd hkpos hklt _ (by linarith) (by linarith)
    · by_cases hk : k = 0
      · rw [if_pos hk]
      · rw [if_neg hk]
        exact (hr1 (by omega) _ (by linarith) (by linarith)).1
    · by_cases hkn2 : k = n
      · rw [if_pos hkn2]
      · rw [if_neg hkn2]
        exact (hr2 (by omega) _ (by linarith) (by linarith)).2

/-- Witness for C2: the highest-density interval at the toy math and
uniform evaluator returns an ordered pair inside the unit interval. -/
theorem claim_C2_witness :
    ∃ lo hi, beta_highest_density_interval toyMath uniLib 2 2 (1 / 2) 1 =
      .ok (lo, hi) ∧ lo ≤ hi ∧ 0 ≤ lo ∧ hi ≤ 1 :=
  (claim_C2 toyMath uniLib toyMathOK).2.1 2 2 (1 / 2) 1 (by norm_num)
    (by norm_num) (by norm_num) (by norm_num) (by norm_num)
    (fun p _ _ => uniLib_ppf_mem 2 2 p) (fun x => uniLib_cdf_le_one 2 2 x)

/-- Evaluation of `binomial_confidence_interval` on valid arguments. -/
theorem bci_eval (lib : BetaLib K) (k n : ℤ) (γ : K) (hk0 : 0 ≤ k)
    (hkn : k ≤ n) (hn1 : 1 ≤ n) (hγ0 : 0 ≤ γ) (hγ1 : γ ≤ 1) :
    binomial_confidence_interval lib k n γ =
      .ok
        (if k = 0 then 0
         else lib.ppf (k : K) ((n - k + 1 : ℤ) : K) ((1 - γ) / 2),
         if k = n then 1
         else lib.ppf ((k + 1 : ℤ) : K) ((n - k : ℤ) : K) (1 - (1 - γ) / 2)) := by
  unfold binomial_confidence_interval
  rw [if_neg (not_lt.mpr hk0), if_neg (not_lt.mpr hn1),
    if_neg (by push_neg; exact ⟨hγ0, hγ1⟩), if_neg (not_lt.mpr hkn)]

/-- C4: for every valid `(k, n, γ)`, the lower Clopper-Pearson bound at
`(k, n, γ)` equals one minus the upper bound at `(n - k, n, γ)`.  The
hypothesis is the mirror law of the beta family (a fact of the
mathematical evaluator: if `X ~ Beta(a, b)` then `1 - X ~ Beta(b, a)`,
so `ppf_a_b(p) = 1 - ppf_b_a(1 - p)` for positive shapes). -/
theorem claim_C4 (lib : BetaLib K) (k n : ℤ) (γ : K)
    (hk0 : 0 ≤ k) (hkn : k ≤ n) (hn1 : 1 ≤ n) (hγ0 : 0 ≤ γ) (hγ1 : γ ≤ 1)
    (hmirror : ∀ aa bb p : K, 0 < aa → 0 < bb →
      lib.ppf aa bb p = 1 - lib.ppf bb aa (1 - p)) :
    ∃ lo hi lo2 hi2,
      binomial_confidence_interval lib k n γ = .ok (lo, hi) ∧
      binomial_confidence_interval lib (n - k) n γ = .ok (lo2, hi2) ∧
      lo = 1 - hi2 := by
  refine ⟨_, _, _, _, bci_eval lib k n γ hk0 hkn hn1 hγ0 hγ1,
    bci_eval lib (n - k) n γ (by omega) (by omega) hn1 hγ0 hγ1, ?_⟩
  by_cases hk : k = 0
  · rw [if_pos hk, if_pos (by omega : n - k = n)]
    norm_num
  · rw [if_neg hk, if_neg (by omega : ¬ n - k = n)]
    have hc : ((n - (n - k) : ℤ) : K) = (k : K) := by push_cast; ring
    have hc2 : ((n - k + 1 : ℤ) : K) = ((n - k + 1 : ℤ) : K) := rfl
    have ha : (0 : K) < (k : K) := by
      exact_mod_cast (by omega : (0 : ℤ) < k)
    have hb : (0 : K) < ((n - k + 1 : ℤ) : K) := by
      exact_mod_cast (by omega : (0 : ℤ) < n - k + 1)
    rw [hc]
    exact hmirror _ _ _ ha hb

/-- Witness for C4 at the uniform evaluator, `k = 1`, `n = 2`,
`γ = 1/2`. -/
theorem claim_C4_witness :
    ∃ lo hi lo2 hi2,
      binomial_confidence_interval uniLib 1 2 (1 / 2) = .ok (lo, hi) ∧
      binomial_confidence_interval uniLib (2 - 1) 2 (1 / 2) = .ok (lo2, hi2) ∧
      lo = 1 - hi2 :=
  claim_C4 uniLib 1 2 (1 / 2) (by norm_num) (by norm_num) (by norm_num)
    (by norm_num) (by norm_num) (fun aa bb p _ _ => uniLib_mirror aa bb p)

/-- C3: on the valid domain, `binomial_confidence_interval` returns the
Clopper-Pearson pair (lower bound exactly `0` when `n_successes = 0`,
else the `(1-confidence)/2` quantile of `Beta(k, n-k+1)`; upper bound
exactly `1` when `n_successes = n_total`, else the `1-(1-confidence)/2`
quantile of `Beta(k+1, n-k)`); any argument outside the domain raises a
validation error; `binomial_confidence_interval(0, 1, 0.5) = (0, 0.75)`
exactly (since `Beta(1,1)` is uniform); and
`binomial_confidence_interval(5, 10, 0.5)` is within `10⁻⁴` of
`(0.3507, 0.6493)` — the bracketing hypotheses on the CDF at
`0.3506/0.3508` and `0.6492/0.6494` are facts of the true `Beta(5, 6)`
and `Beta(6, 5)` CDF polynomials. -/
theorem claim_C3 (lib : BetaLib K) :
    (∀ (k n : ℤ) (γ : K), 0 ≤ k → k ≤ n → 1 ≤ n → 0 ≤ γ → γ ≤ 1 →
      binomial_confidence_interval lib k n γ =
        .ok
          (if k = 0 then 0
           else lib.ppf (k : K) ((n - k + 1 : ℤ) : K) ((1 - γ) / 2),
           if k = n then 1
           else lib.ppf ((k + 1 : ℤ) : K) ((n - k : ℤ) : K) (1 - (1 - γ) / 2))) ∧
    (∀ (k n : ℤ) (γ : K), k < 0 ∨ n < 1 ∨ γ < 0 ∨ 1 < γ ∨ n < k →
      ∃ msg, binomial_confidence_interval lib k n γ = .error msg) ∧
    ((∀ p : K, 0 ≤ p → p ≤ 1 → lib.ppf 1 1 p = p) →
      binomial_confidence_interval lib 0 1 (1 / 2) = .ok (0, 3 / 4)) ∧
    ((∀ u v : K, 0 ≤ u → u ≤ v → v ≤ 1 → lib.cdf 5 6 u ≤ lib.cdf 5 6 v) →
      lib.cdf 5 6 (3506 / 10000) < 1 / 4 →
      1 / 4 < lib.cdf 5 6 (3508 / 10000) →
      lib.cdf 5 6 (lib.ppf 5 6 (1 / 4)) = 1 / 4 →
      0 ≤ lib.ppf 5 6 (1 / 4) ∧ lib.ppf 5 6 (1 / 4) ≤ 1 →
      (∀ u v : K, 0 ≤ u → u ≤ v → v ≤ 1 → lib.cdf 6 5 u ≤ lib.cdf 6 5 v) →
      lib.cdf 6 5 (6492 / 10000) < 3 / 4 →
      3 / 4 < lib.cdf 6 5 (6494 / 10000) →
      lib.cdf 6 5 (lib.ppf 6 5 (3 / 4)) = 3 / 4 →
      0 ≤ lib.ppf 6 5 (3 / 4) ∧ lib.ppf 6 5 (3 / 4) ≤ 1 →
      ∃ lo hi, binomial_confidence_interval lib 5 10 (1 / 2) = .ok (lo, hi) ∧
        3506 / 10000 < lo ∧ lo < 3508 / 10000 ∧
        6492 / 10000 < hi ∧ hi < 6494 / 10000) := by
  have hex : binomial_confidence_interval lib 5 10 (1 / 2) =
      .ok (lib.ppf 5 6 (1 / 4), lib.ppf 6 5 (3 / 4)) := by
    rw [bci_eval lib 5 10 (1 / 2) (by norm_num) (by norm_num) (by norm_num)
      (by norm_num) (by norm_num)]
    norm_num
  refine ⟨fun k n γ hk0 hkn hn1 hγ0 hγ1 => bci_eval lib k n γ hk0 hkn hn1 hγ0 hγ1,
    ?_, ?_, ?_⟩
  · intro k n γ hbad
    unfold binomial_confidence_interval
    by_cases h1 : k < 0
    · exact ⟨_, by rw [if_pos h1]⟩
    rw [if_neg h1]
    by_cases h2 : n < 1
    · exact ⟨_, by rw [if_pos h2]⟩
    rw [if_neg h2]
    by_cases h3 : γ < 0 ∨ 1 < γ
    · exact ⟨_, by rw [if_pos h3]⟩
    rw [if_neg h3]
    by_cases h4 : n < k
    · exact ⟨_, by rw [if_pos h4]⟩
    exfalso
    push_neg at h3
    rcases hbad with h | h | h | h | h
    · exact h1 h
    · exact h2 h
    · exact absurd h (not_lt.mpr h3.1)
    · exact absurd h (not_lt.mpr h3.2)
    · exact h4 h
  · intro huni
    rw [bci_eval lib 0 1 (1 / 2) (by norm_num) (by norm_num) (by norm_num)
      (by norm_num) (by norm_num)]
    rw [if_pos rfl, if_neg (by norm_num)]
    norm_num
    exact huni (3 / 4) (by norm_num) (by norm_num)
  · intro h56m h56lo h56hi h56inv h56mem h65m h65lo h65hi h65inv h65mem
    refine ⟨_, _, hex, ?_, ?_, ?_, ?_⟩
    · by_contra hcon
      push_neg at hcon
      have := h56m _ _ h56mem.1 hcon (by norm_num)
      rw [h56inv] at this
      linarith
    · by_contra hcon
      push_neg at hcon
      have := h56m _ _ (by norm_num) hcon h56mem.2
      rw [h56inv] at this
      linarith
    · by_contra hcon
      push_neg at hcon
      have := h65m _ _ h65mem.1 hcon (by norm_num)
      rw [h65inv] at this
      linarith
    · by_contra hcon
      push_neg at hcon
      have := h65m _ _ (by norm_num) hcon h65mem.2
      rw [h65inv] at this
      linarith

theorem cpLib_cdf56 (x : ℚ) : cpLib.cdf 5 6 x = clip (x - 1007 / 10000) 0 1 := by
  show (if (5 : ℚ) = 5 ∧ (6 : ℚ) = 6 then clip (x - 1007 / 10000) 0 1
    else if (5 : ℚ) = 6 ∧ (6 : ℚ) = 5 then clip (x + 1007 / 10000) 0 1
    else clip x 0 1) = clip (x - 1007 / 10000) 0 1
  rw [if_pos ⟨rfl, rfl⟩]

theorem cpLib_cdf65 (x : ℚ) : cpLib.cdf 6 5 x = clip (x + 1007 / 10000) 0 1 := by
  show (if (6 : ℚ) = 5 ∧ (5 : ℚ) = 6 then clip (x - 1007 / 10000) 0 1
    else if (6 : ℚ) = 6 ∧ (5 : ℚ) = 5 then clip (x + 1007 / 10000) 0 1
    else clip x 0 1) = clip (x + 1007 / 10000) 0 1
  rw [if_neg (by norm_num), if_pos ⟨rfl, rfl⟩]

theorem cpLib_ppf56 (p : ℚ) : cpLib.ppf 5 6 p = clip (p + 1007 / 10000) 0 1 := by
  show (if (5 : ℚ) = 5 ∧ (6 : ℚ) = 6 then clip (p + 1007 / 10000) 0 1
    else if (5 : ℚ) = 6 ∧ (6 : ℚ) = 5 then clip (p - 1007 / 10000) 0 1
    else clip p 0 1) = clip (p + 1007 / 10000) 0 1
  rw [if_pos ⟨rfl, rfl⟩]

theorem cpLib_ppf65 (p : ℚ) : cpLib.ppf 6 5 p = clip (p - 1007 / 10000) 0 1 := by
  show (if (6 : ℚ) = 5 ∧ (5 : ℚ) = 6 then clip (p + 1007 / 10000) 0 1
    else if (6 : ℚ) = 6 ∧ (5 : ℚ) = 5 then clip (p - 1007 / 10000) 0 1
    else clip p 0 1) = clip (p - 1007 / 10000) 0 1
  rw [if_neg (by norm_num), if_pos ⟨rfl, rfl⟩]

/-- Witness for C3: the Clopper-Pearson example part at the concrete
evaluator `cpLib`, which satisfies every bracketing hypothesis. -/
theorem claim_C3_witness :
    ∃ lo hi, binomial_confidence_interval cpLib 5 10 (1 / 2) = .ok (lo, hi) ∧
      3506 / 10000 < lo ∧ lo < 3508 / 10000 ∧
      6492 / 10000 < hi ∧ hi < 6494 / 10000 :=
  (claim_C3 cpLib).2.2.2
    (fun u v _ huv _ => by
      rw [cpLib_cdf56, cpLib_cdf56]
      exact clip_mono 0 1 (by linarith))
    (by rw [cpLib_cdf56, clip_of_mem (by norm_num) (by norm_num)]; norm_num)
    (by rw [cpLib_cdf56, clip_of_mem (by norm_num) (by norm_num)]; norm_num)
    (by
      rw [cpLib_ppf56, clip_of_mem (by norm_num) (by norm_num), cpLib_cdf56,
        clip_of_mem (by norm_num) (by norm_num)]
      norm_num)
    (by rw [cpLib_ppf56]; exact clip_mem01 _)
    (fun u v _ huv _ => by
      rw [cpLib_cdf65, cpLib_cdf65]
      exact clip_mono 0 1 (by linarith))
    (by rw [cpLib_cdf65, clip_of_mem (by norm_num) (by norm_num)]; norm_num)
    (by rw [cpLib_cdf65, clip_of_mem (by norm_num) (by norm_num)]; norm_num)
    (by
      rw [cpLib_ppf65, clip_of_mem (by norm_num) (by norm_num), cpLib_cdf65,
        clip_of_mem (by norm_num) (by norm_num)]
      norm_num)
    (by rw [cpLib_ppf65]; exact clip_mem01 _)

/-- C7 (amended): `beta_equal_tailed_coverage` performs no validation at
all and returns `2 * |0.5 - cdf(x)|` for every input (so it never raises
on non-positive shapes); `beta_highest_density_coverage` raises only the
no-unique-mode error (when `a ≤ 1` and `b ≤ 1`) and otherwise returns a
value even for non-positive shapes; the interval functions do validate
shape positivity as the error taxonomy describes. -/
theorem claim_C7 (m : NumpyMath K) (lib : BetaLib K) :
    (∀ a b x : K, beta_equal_tailed_coverage lib a b x =
      .ok (2 * |1 / 2 - lib.cdf a b x|)) ∧
    (∀ a b x atol : K, ¬(a ≤ 1 ∧ b ≤ 1) →
      ∃ v, beta_highest_density_coverage m lib a b x atol = .ok v) ∧
    (∀ a b x atol : K, a ≤ 1 → b ≤ 1 →
      beta_highest_density_coverage m lib a b x atol =
        .error "Either a or b must be greater than one to have a highest density interval.") ∧
    (∀ a b coverage : K, a ≤ 0 →
      beta_equal_tailed_interval lib a b coverage = .error "a must be positive.") ∧
    (∀ a b coverage : K, ¬ a ≤ 0 → b ≤ 0 →
      beta_equal_tailed_interval lib a b coverage = .error "b must be positive.") ∧
    (∀ a b coverage atol : K, a ≤ 0 →
      beta_highest_density_interval m lib a b coverage atol =
        .error "a must be positive.") := by
  refine ⟨fun a b x => rfl, ?_, ?_, ?_, ?_, ?_⟩
  · intro a b x atol h
    exact ⟨_, by unfold beta_highest_density_coverage; rw [if_neg h]⟩
  · intro a b x atol h1 h2
    unfold beta_highest_density_coverage
    rw [if_pos ⟨h1, h2⟩]
  · intro a b c h
    unfold beta_equal_tailed_interval
    rw [if_pos h]
  · intro a b c h1 h2
    unfold beta_equal_tailed_interval
    rw [if_neg h1, if_pos h2]
  · intro a b c atol h
    unfold beta_highest_density_interval
    rw [if_pos h]

/-- Witness for C7: `beta_highest_density_coverage` with `a = 0 ≤ 0`
and `b = 3 > 1` returns a value instead of raising. -/
theorem claim_C7_witness :
    ∃ v, beta_highest_density_coverage toyMath uniLib 0 3 (1 / 2) 1 = .ok v :=
  (claim_C7 toyMath uniLib).2.1 0 3 (1 / 2) 1 (by norm_num)

/-- Counterexample for C7 as stated: at `a = -1 ≤ 0` (with `b = 2`),
both coverage functions return a value rather than raising a validation
error. -/
theorem claim_C7_cex :
    beta_equal_tailed_coverage uniLib (-1) 2 (1 / 2) = .ok 0 ∧
    (beta_highest_density_coverage toyMath uniLib (-1) 2 (1 / 2) 1).isOk = true := by
  constructor
  · show Except.ok (2 * |1 / 2 - uniLib.cdf (-1) 2 (1 / 2)|) = .ok 0
    have h : uniLib.cdf (-1) 2 (1 / 2) = 1 / 2 :=
      clip_of_mem (by norm_num) (by norm_num)
    rw [h]
    norm_num
  · unfold beta_highest_density_coverage
    rw [if_neg (by norm_num)]
    rfl

/-- C6: on already-broadcast arrays, `beta_highest_density_interval`
raises (before computing anything) whenever some element pair has both
`a ≤ 1` and `b ≤ 1`, and also when some `a ≤ 0`, some `b ≤ 0`, or some
coverage lies outside the unit interval, in the source's checking order;
`beta_highest_density_coverage` raises exactly on the no-unique-mode
condition; otherwise both calls succeed (on nonempty inputs, where the
reduction `np.max` is defined). -/
theorem claim_C6 (m : NumpyMath K) (lib : BetaLib K) (hm : NpMathOK m) :
    (∀ (a b coverage : List K) (atol : K),
      (∀ v ∈ a, 0 < v) → (∀ v ∈ b, 0 < v) →
      (∀ v ∈ coverage, 0 ≤ v ∧ v ≤ 1) →
      (∃ p ∈ a.zip b, p.1 ≤ 1 ∧ p.2 ≤ 1) →
      beta_highest_density_interval_nd m lib a b coverage atol =
        .error "Either a or b must be greater than one to have a highest density interval.") ∧
    (∀ (a b coverage : List K) (atol : K), (∃ v ∈ a, v ≤ 0) →
      beta_highest_density_interval_nd m lib a b coverage atol =
        .error "a must be positive.") ∧
    (∀ (a b coverage : List K) (atol : K), (∀ v ∈ a, 0 < v) → (∃ v ∈ b, v ≤ 0) →
      beta_highest_density_interval_nd m lib a b coverage atol =
        .error "b must be positive.") ∧
    (∀ (a b coverage : List K) (atol : K), (∀ v ∈ a, 0 < v) → (∀ v ∈ b, 0 < v) →
      (∃ v ∈ coverage, v < 0 ∨ 1 < v) →
      beta_highest_density_interval_nd m lib a b coverage atol =
        .error "coverage must be between 0 and 1.") ∧
    (∀ (a b coverage : List K) (atol : K), a ≠ [] →
      (∀ v ∈ a, 0 < v) → (∀ v ∈ b, 0 < v) →
      (∀ v ∈ coverage, 0 ≤ v ∧ v ≤ 1) →
      (∀ p ∈ a.zip b, 1 < p.1 ∨ 1 < p.2) →
      ∃ r, beta_highest_density_interval_nd m lib a b coverage atol = .ok r) ∧
    (∀ (a b x : List K) (atol : K), (∃ p ∈ a.zip b, p.1 ≤ 1 ∧ p.2 ≤ 1) →
      beta_highest_density_coverage_nd m lib a b x atol =
        .error "Either a or b must be greater than one to have a highest density interval.") ∧
    (∀ (a b x : List K) (atol : K), a ≠ [] → (∀ p ∈ a.zip b, 1 < p.1 ∨ 1 < p.2) →
      ∃ r, beta_highest_density_coverage_nd m lib a b x atol = .ok r) := by
  have hAt : ∀ (l : List K), (∃ v ∈ l, v ≤ 0) →
      ((l.any fun v => decide (v ≤ 0)) = true) := by
    intro l h
    rw [List.any_eq_true]
    obtain ⟨v, hv, hle⟩ := h
    refine ⟨v, hv, ?_⟩
    rw [decide_eq_true_eq]
    exact hle
  have hA : ∀ (l : List K), (∀ v ∈ l, 0 < v) →
      ¬((l.any fun v => decide (v ≤ 0)) = true) := by
    intro l h hc
    rw [List.any_eq_true] at hc
    obtain ⟨v, hv, hle⟩ := hc
    rw [decide_eq_true_eq] at hle
    exact absurd hle (not_le.mpr (h v hv))
  have hCt : ∀ (l : List K), (∃ v ∈ l, v < 0 ∨ 1 < v) →
      ((l.any fun v => decide (v < 0) || decide (1 < v)) = true) := by
    intro l h
    rw [List.any_eq_true]
    obtain ⟨v, hv, hor⟩ := h
    refine ⟨v, hv, ?_⟩
    rw [Bool.or_eq_true, decide_eq_true_eq, decide_eq_true_eq]
    exact hor
  have hC : ∀ (l : List K), (∀ v ∈ l, 0 ≤ v ∧ v ≤ 1) →
      ¬((l.any fun v => decide (v < 0) || decide (1 < v)) = true) := by
    intro l h hc
    rw [List.any_eq_true] at hc
    obtain ⟨v, hv, hor⟩ := hc
    rw [Bool.or_eq_true, decide_eq_true_eq, decide_eq_true_eq] at hor
    rcases hor with h1 | h1
    · exact absurd h1 (not_lt.mpr (h v hv).1)
    · exact absurd h1 (not_lt.mpr (h v hv).2)
  have hZt : ∀ (a b : List K), (∃ p ∈ a.zip b, p.1 ≤ 1 ∧ p.2 ≤ 1) →
      (((a.zip b).any fun p => decide (p.1 ≤ 1) && decide (p.2 ≤ 1)) = true) := by
    intro a b h
    rw [List.any_eq_true]
    obtain ⟨p, hp, h1, h2⟩ := h
    refine ⟨p, hp, ?_⟩
    rw [Bool.and_eq_true, decide_eq_true_eq, decide_eq_true_eq]
    exact ⟨h1, h2⟩
  have hZ : ∀ (a b : List K), (∀ p ∈ a.zip b, 1 < p.1 ∨ 1 < p.2) →
      ¬(((a.zip b).any fun p => decide (p.1 ≤ 1) && decide (p.2 ≤ 1)) = true) := by
    intro a b h hc
    rw [List.any_eq_true] at hc
    obtain ⟨p, hp, hand⟩ := hc
    rw [Bool.and_eq_true, decide_eq_true_eq, decide_eq_true_eq] at hand
    rcases h p hp with h1 | h1
    · exact absurd hand.1 (not_le.mpr h1)
    · exact absurd hand.2 (not_le.mpr h1)
  refine ⟨?_, ?_, ?_, ?_, ?_, ?_, ?_⟩
  · intro a b coverage atol ha hb hcov hbad
    unfold beta_highest_density_interval_nd
    rw [if_neg (hA a ha), if_neg (hA b hb), if_neg (hC coverage hcov),
      if_pos (hZt a b hbad)]
  · intro a b coverage atol hbad
    unfold beta_highest_density_interval_nd
    rw [if_pos (hAt a hbad)]
  · intro a b coverage atol ha hbad
    unfold beta_highest_density_interval_nd
    rw [if_neg (hA a ha), if_pos (hAt b hbad)]
  · intro a b coverage atol ha hb hbad
    unfold beta_highest_density_interval_nd
    rw [if_neg (hA a ha), if_neg (hA b hb), if_pos (hCt coverage hbad)]
  · intro a b coverage atol _ ha hb hcov hgood
    exact ⟨_, by
      unfold beta_highest_density_interval_nd
      rw [if_neg (hA a ha), if_neg (hA b hb), if_neg (hC coverage hcov),
        if_neg (hZ a b hgood)]⟩
  · intro a b x atol hbad
    unfold beta_highest_density_coverage_nd
    rw [if_pos (hZt a b hbad)]
  · intro a b x atol _ hgood
    exact ⟨_, by
      unfold beta_highest_density_coverage_nd
      rw [if_neg (hZ a b hgood)]⟩

/-- Witness for C6: the success case on singleton arrays with `a = b = 2`,
coverage `0`. -/
theorem claim_C6_witness :
    ∃ r, beta_highest_density_interval_nd toyMath uniLib [2] [2] [0] 1 = .ok r :=
  (claim_C6 toyMath uniLib toyMathOK).2.2.2.2.1 [2] [2] [0] 1 (by decide)
    (by decide) (by decide) (by decide) (by decide)

/-- C8 (amended): `sort_by_first` with zero arguments returns the empty
tuple; with arrays of differing shapes it raises a validation error; and
on equal-shape arrays it applies the single permutation produced by the
external argsort of the first array to every array, so the first output
is sorted ascending and every output is a rearrangement of its input.
(The order among tied elements of the first array is whatever the sort
kind produces — stability is not guaranteed; see `claim_C8_cex`.) -/
theorem claim_C8 :
    (∀ f : List K → List ℕ, sort_by_first f [] = .ok []) ∧
    (∀ (f : List K → List ℕ) (a0 : List K) (rest : List (List K)),
      (∃ a ∈ a0 :: rest, a.length ≠ a0.length) →
      sort_by_first f (a0 :: rest) =
        .error "All argument arrays must have the same shape.") ∧
    (∀ (f : List K → List ℕ) (a0 : List K) (rest : List (List K)),
      (∀ a ∈ a0 :: rest, a.length = a0.length) →
      IsSortingPerm a0 (f a0) →
      sort_by_first f (a0 :: rest) = .ok ((a0 :: rest).map (applyPerm (f a0))) ∧
      (applyPerm (f a0) a0).Sorted (· ≤ ·) ∧
      ∀ a ∈ a0 :: rest, (applyPerm (f a0) a).Perm a) := by
  refine ⟨fun f => rfl, ?_, ?_⟩
  · intro f a0 rest h
    have ht : (((a0 :: rest).any fun a => decide (a.length ≠ a0.length)) = true) := by
      rw [List.any_eq_true]
      obtain ⟨a, ha, hne⟩ := h
      refine ⟨a, ha, ?_⟩
      rw [decide_eq_true_eq]
      exact hne
    simp only [sort_by_first]
    rw [if_pos ht]
  · intro f a0 rest hlen hperm
    have hany : ¬(((a0 :: rest).any fun a => decide (a.length ≠ a0.length)) = true) := by
      intro hc
      rw [List.any_eq_true] at hc
      obtain ⟨a, ha, hne⟩ := hc
      rw [decide_eq_true_eq] at hne
      exact hne (hlen a ha)
    refine ⟨?_, hperm.2, ?_⟩
    · simp only [sort_by_first]
      rw [if_neg hany]
    · intro a ha
      exact applyPerm_perm (by rw [hlen a ha]; exact hperm.1)

/-- Witness for C8: a conforming argsort permutation applied to two
equal-length arrays. -/
theorem claim_C8_witness :
    sort_by_first (fun _ => [1, 0]) [[2, 1], [5, 6]] =
      .ok ([[(2 : ℚ), 1], [5, 6]].map (applyPerm [1, 0])) ∧
    (applyPerm [1, 0] [(2 : ℚ), 1]).Sorted (· ≤ ·) ∧
    ∀ a ∈ [[(2 : ℚ), 1], [5, 6]], (applyPerm [1, 0] a).Perm a :=
  claim_C8.2.2 (fun _ => [1, 0]) [2, 1] [[5, 6]] (by decide)
    ⟨by decide, by decide⟩

/-- Counterexample for C8 as stated: on first array `[1, 1]` (a tie)
with second array `[10, 20]`, the permutation `[1, 0]` satisfies the
documented argsort contract (numpy's default quicksort kind does not
guarantee stability), yet the result swaps the tied elements' companions
to `[20, 10]` instead of the stable `[10, 20]`. -/
theorem claim_C8_cex :
    IsSortingPerm ([1, 1] : List ℚ) [1, 0] ∧
    sort_by_first (fun _ => [1, 0]) [[1, 1], [10, 20]] =
      .ok [[(1 : ℚ), 1], [20, 10]] ∧
    sort_by_first (fun _ => [1, 0]) [[1, 1], [10, 20]] ≠
      .ok [[(1 : ℚ), 1], [10, 20]] := by
  refine ⟨⟨by decide, by decide⟩, rfl, ?_⟩
  intro h
  have h2 : [[(1 : ℚ), 1], [20, 10]] = [[1, 1], [10, 20]] :=
    Except.ok.inj ((show sort_by_first (fun _ => [1, 0]) [[1, 1], [10, 20]] =
      .ok [[(1 : ℚ), 1], [20, 10]] from rfl).symm.trans h)
  exact absurd h2 (by decide)

end Opda
